import Mathlib

/-!
# Verification of the biomesh voxelization / hex-mesh core

Shallow embedding of the biomesh voxelization and hexahedral mesh
generation engine: `BoundingBox` (BoundingBox.cpp), `VoxelGrid`
(src/VoxelGrid.cpp), and the empty-voxel mesh generator
(EmptyVoxelMeshGenerator.cpp, HexMesh.hpp).

C++ `double` values are embedded as `ℚ` (exact arithmetic); machine `int`
sizes are embedded as `ℕ`/`ℤ` with no overflow, and C++ exceptions become
`Option`/`Except` results.  Every definition is translated from the
repository source; the relevant C++ function is named in its doc comment.
-/

namespace BioMesh

/-- `Point3D` from BoundingBox.hpp: a 3-D point with `double` coordinates. -/
structure Point3D where
  x : ℚ
  y : ℚ
  z : ℚ
deriving DecidableEq, Repr

/-- The fields of `Atom` (Atom.hpp) that the voxelization core reads:
`getId()`, `getX()/getY()/getZ()`, `getAtomicRadius()`. -/
structure Atom where
  id : ℕ
  x : ℚ
  y : ℚ
  z : ℚ
  atomicRadius : ℚ
deriving DecidableEq, Repr

/-- `BoundingBox` (BoundingBox.hpp): a min corner and a max corner. -/
structure BoundingBox where
  min : Point3D
  max : Point3D
deriving DecidableEq, Repr

/-- Running minimum of `f` over `a :: rest`, as the `std::min` fold in
`BoundingBox::calculateBounds`.  The C++ fold starts from the sentinel
`std::numeric_limits<double>::max()`; over a non-empty atom list that is
the same as starting from the first atom's value, which is how the
sentinel-free embedding phrases it. -/
def foldMin (f : Atom → ℚ) (a : Atom) (rest : List Atom) : ℚ :=
  rest.foldl (fun acc b => min acc (f b)) (f a)

/-- Running maximum of `f` over `a :: rest` (`std::max` fold in
`BoundingBox::calculateBounds`, sentinel `std::numeric_limits<double>::lowest()`). -/
def foldMax (f : Atom → ℚ) (a : Atom) (rest : List Atom) : ℚ :=
  rest.foldl (fun acc b => max acc (f b)) (f a)

/-- `BoundingBox::BoundingBox(atoms, padding)` together with
`BoundingBox::calculateBounds`: throws (`none`) on an empty atom vector;
otherwise folds componentwise min/max of `position ∓ radius` over the
atoms and then applies the scalar padding to both corners. -/
def BoundingBox.construct (atoms : List Atom) (padding : ℚ) : Option BoundingBox :=
  match atoms with
  | [] => none
  | a :: rest =>
    some
      { min := ⟨foldMin (fun b => b.x - b.atomicRadius) a rest - padding,
                foldMin (fun b => b.y - b.atomicRadius) a rest - padding,
                foldMin (fun b => b.z - b.atomicRadius) a rest - padding⟩
        max := ⟨foldMax (fun b => b.x + b.atomicRadius) a rest + padding,
                foldMax (fun b => b.y + b.atomicRadius) a rest + padding,
                foldMax (fun b => b.z + b.atomicRadius) a rest + padding⟩ }

/-- `VoxelIndex` plus the per-voxel data of `Voxel` (VoxelGrid.hpp):
grid index, center, min corner, max corner, occupancy flag and the ids of
the intersecting atoms. -/
structure Voxel where
  index : ℕ × ℕ × ℕ
  center : Point3D
  min : Point3D
  max : Point3D
  occupied : Bool
  atomIds : List ℕ
deriving DecidableEq, Repr

/-- `EmptyVoxelMeshGenerator::computeCornerNodes`: the 8 corners of a
voxel in the canonical hexahedral order (source lines 50-59). -/
def computeCornerNodes (voxel : Voxel) : List Point3D :=
  [⟨voxel.min.x, voxel.min.y, voxel.min.z⟩,
   ⟨voxel.max.x, voxel.min.y, voxel.min.z⟩,
   ⟨voxel.max.x, voxel.max.y, voxel.min.z⟩,
   ⟨voxel.min.x, voxel.max.y, voxel.min.z⟩,
   ⟨voxel.min.x, voxel.min.y, voxel.max.z⟩,
   ⟨voxel.max.x, voxel.min.y, voxel.max.z⟩,
   ⟨voxel.max.x, voxel.max.y, voxel.max.z⟩,
   ⟨voxel.min.x, voxel.max.y, voxel.max.z⟩]

section BoundingBoxProofs

lemma foldl_min_le_init (rest : List Atom) (f : Atom → ℚ) (init : ℚ) :
    rest.foldl (fun acc b => min acc (f b)) init ≤ init := by
  induction rest generalizing init with
  | nil => exact le_refl _
  | cons b rest ih =>
    exact le_trans (ih (min init (f b))) (min_le_left _ _)

lemma foldl_min_le_mem (rest : List Atom) (f : Atom → ℚ) (init : ℚ)
    (b : Atom) (hb : b ∈ rest) :
    rest.foldl (fun acc c => min acc (f c)) init ≤ f b := by
  induction rest generalizing init with
  | nil => cases hb
  | cons c rest ih =>
    rcases List.mem_cons.1 hb with h | h
    · subst h
      exact le_trans (foldl_min_le_init rest f _) (min_le_right _ _)
    · exact ih _ h

lemma init_le_foldl_max (rest : List Atom) (f : Atom → ℚ) (init : ℚ) :
    init ≤ rest.foldl (fun acc b => max acc (f b)) init := by
  induction rest generalizing init with
  | nil => exact le_refl _
  | cons b rest ih =>
    exact le_trans (le_max_left _ _) (ih (max init (f b)))

lemma mem_le_foldl_max (rest : List Atom) (f : Atom → ℚ) (init : ℚ)
    (b : Atom) (hb : b ∈ rest) :
    f b ≤ rest.foldl (fun acc c => max acc (f c)) init := by
  induction rest generalizing init with
  | nil => cases hb
  | cons c rest ih =>
    rcases List.mem_cons.1 hb with h | h
    · subst h
      exact le_trans (le_max_right _ _) (init_le_foldl_max rest f _)
    · exact ih _ h

lemma foldMin_le (f : Atom → ℚ) (a : Atom) (rest : List Atom)
    (b : Atom) (hb : b ∈ a :: rest) : foldMin f a rest ≤ f b := by
  rcases List.mem_cons.1 hb with h | h
  · subst h; exact foldl_min_le_init rest f (f b)
  · exact foldl_min_le_mem rest f (f a) b h

lemma le_foldMax (f : Atom → ℚ) (a : Atom) (rest : List Atom)
    (b : Atom) (hb : b ∈ a :: rest) : f b ≤ foldMax f a rest := by
  rcases List.mem_cons.1 hb with h | h
  · subst h; exact init_le_foldl_max rest f (f b)
  · exact mem_le_foldl_max rest f (f a) b h

end BoundingBoxProofs

/-- C6: for every non-empty atom list (radii nonnegative, as the atom data
model requires) and every padding ≥ 0, the constructed bounding box has
`min ≤ max` componentwise and every atom sphere
`[position - radius, position + radius]` lies within `[min, max]` on each
axis. -/
theorem boundingBox_encloses_spheres (atoms : List Atom) (padding : ℚ)
    (bb : BoundingBox) (hbb : BoundingBox.construct atoms padding = some bb)
    (hrad : ∀ a ∈ atoms, 0 ≤ a.atomicRadius) (hpad : 0 ≤ padding) :
    (bb.min.x ≤ bb.max.x ∧ bb.min.y ≤ bb.max.y ∧ bb.min.z ≤ bb.max.z) ∧
    ∀ a ∈ atoms,
      (bb.min.x ≤ a.x - a.atomicRadius ∧ a.x + a.atomicRadius ≤ bb.max.x) ∧
      (bb.min.y ≤ a.y - a.atomicRadius ∧ a.y + a.atomicRadius ≤ bb.max.y) ∧
      (bb.min.z ≤ a.z - a.atomicRadius ∧ a.z + a.atomicRadius ≤ bb.max.z) := by
  match atoms, hbb with
  | a :: rest, hbb =>
    simp only [BoundingBox.construct, Option.some.injEq] at hbb
    subst hbb
    have hmem : a ∈ a :: rest := List.mem_cons_self a rest
    have hra : 0 ≤ a.atomicRadius := hrad a hmem
    constructor
    · have h1x := foldMin_le (fun c => c.x - c.atomicRadius) a rest a hmem
      have h2x := le_foldMax (fun c => c.x + c.atomicRadius) a rest a hmem
      have h1y := foldMin_le (fun c => c.y - c.atomicRadius) a rest a hmem
      have h2y := le_foldMax (fun c => c.y + c.atomicRadius) a rest a hmem
      have h1z := foldMin_le (fun c => c.z - c.atomicRadius) a rest a hmem
      have h2z := le_foldMax (fun c => c.z + c.atomicRadius) a rest a hmem
      dsimp at h1x h2x h1y h2y h1z h2z ⊢
      exact ⟨by linarith, by linarith, by linarith⟩
    · intro b hb
      have h1x := foldMin_le (fun c => c.x - c.atomicRadius) a rest b hb
      have h2x := le_foldMax (fun c => c.x + c.atomicRadius) a rest b hb
      have h1y := foldMin_le (fun c => c.y - c.atomicRadius) a rest b hb
      have h2y := le_foldMax (fun c => c.y + c.atomicRadius) a rest b hb
      have h1z := foldMin_le (fun c => c.z - c.atomicRadius) a rest b hb
      have h2z := le_foldMax (fun c => c.z + c.atomicRadius) a rest b hb
      dsimp at h1x h2x h1y h2y h1z h2z ⊢
      exact ⟨⟨by linarith, by linarith⟩, ⟨by linarith, by linarith⟩,
             ⟨by linarith, by linarith⟩⟩

/-- A concrete atom used by the witnesses: id 0, position (0,0,0), radius 1. -/
def atomW : Atom := { id := 0, x := 0, y := 0, z := 0, atomicRadius := 1 }

/-- The bounding box `BoundingBox.construct [atomW] 0` computes. -/
def bbW : BoundingBox := { min := ⟨-1, -1, -1⟩, max := ⟨1, 1, 1⟩ }

unseal Rat.add Rat.mul Rat.inv Rat.sub in
theorem boundingBox_encloses_spheres_witness :
    BoundingBox.construct [atomW] 0 = some bbW ∧
    ((bbW.min.x ≤ bbW.max.x ∧ bbW.min.y ≤ bbW.max.y ∧ bbW.min.z ≤ bbW.max.z) ∧
     ∀ a ∈ [atomW],
       (bbW.min.x ≤ a.x - a.atomicRadius ∧ a.x + a.atomicRadius ≤ bbW.max.x) ∧
       (bbW.min.y ≤ a.y - a.atomicRadius ∧ a.y + a.atomicRadius ≤ bbW.max.y) ∧
       (bbW.min.z ≤ a.z - a.atomicRadius ∧ a.z + a.atomicRadius ≤ bbW.max.z)) :=
  ⟨by decide,
   boundingBox_encloses_spheres [atomW] 0 bbW (by decide) (by decide) (by decide)⟩

/-- C3: `computeCornerNodes` returns exactly 8 corners, and corner `i` is
the canonical point of the hexahedral node-ordering convention:
0:(min,min,min) 1:(max,min,min) 2:(max,max,min) 3:(min,max,min)
4:(min,min,max) 5:(max,min,max) 6:(max,max,max) 7:(min,max,max). -/
theorem computeCornerNodes_canonical_order (v : Voxel) :
    (computeCornerNodes v).length = 8 ∧
    computeCornerNodes v =
      [⟨v.min.x, v.min.y, v.min.z⟩, ⟨v.max.x, v.min.y, v.min.z⟩,
       ⟨v.max.x, v.max.y, v.min.z⟩, ⟨v.min.x, v.max.y, v.min.z⟩,
       ⟨v.min.x, v.min.y, v.max.z⟩, ⟨v.max.x, v.min.y, v.max.z⟩,
       ⟨v.max.x, v.max.y, v.max.z⟩, ⟨v.min.x, v.max.y, v.max.z⟩] :=
  ⟨rfl, rfl⟩

/-- The squared center-to-atom distance of `VoxelGrid::isVoxelOccupied`
(`dx*dx + dy*dy + dz*dz`). -/
def squaredDistance (voxelCenter : Point3D) (atom : Atom) : ℚ :=
  (voxelCenter.x - atom.x) * (voxelCenter.x - atom.x) +
  (voxelCenter.y - atom.y) * (voxelCenter.y - atom.y) +
  (voxelCenter.z - atom.z) * (voxelCenter.z - atom.z)

/-- The ids collected by `VoxelGrid::isVoxelOccupied`: every atom whose
sphere contains the voxel center (`distanceSquared <= radius * radius`),
in atom-list order. -/
def intersectingAtomIds (voxelCenter : Point3D) (atoms : List Atom) : List ℕ :=
  (atoms.filter fun atom =>
      decide (squaredDistance voxelCenter atom ≤ atom.atomicRadius * atom.atomicRadius)).map
    Atom.id

/-- The return value of `VoxelGrid::isVoxelOccupied`:
`!intersectingAtomIds.empty()`. -/
def isVoxelOccupied (voxelCenter : Point3D) (atoms : List Atom) : Bool :=
  !(intersectingAtomIds voxelCenter atoms).isEmpty

/-- One iteration of the voxel-generation loop of `VoxelGrid::initialize`
(source lines 60-78): bounds `min + (i,j,k)*voxelSize`, `min + voxelSize`,
center `min + voxelSize * 0.5`, and the occupancy classification. -/
def mkVoxel (boxMin : Point3D) (voxelSize : ℚ) (atoms : List Atom)
    (i j k : ℕ) : Voxel :=
  let vmin : Point3D :=
    ⟨boxMin.x + i * voxelSize, boxMin.y + j * voxelSize, boxMin.z + k * voxelSize⟩
  let vmax : Point3D := ⟨vmin.x + voxelSize, vmin.y + voxelSize, vmin.z + voxelSize⟩
  let c : Point3D :=
    ⟨vmin.x + voxelSize * (1 / 2), vmin.y + voxelSize * (1 / 2),
     vmin.z + voxelSize * (1 / 2)⟩
  { index := (i, j, k)
    center := c
    min := vmin
    max := vmax
    occupied := isVoxelOccupied c atoms
    atomIds := intersectingAtomIds c atoms }

/-- One per-axis grid dimension of `VoxelGrid::initialize`:
`max(1, ceil(boxDimension / voxelSize))` (source lines 36-43). -/
def gridDim (boxDimension voxelSize : ℚ) : ℕ :=
  (max 1 ⌈boxDimension / voxelSize⌉).toNat

/-- The three grid dimensions computed from the bounding box. -/
def gridDims (boundingBox : BoundingBox) (voxelSize : ℚ) : ℕ × ℕ × ℕ :=
  (gridDim (boundingBox.max.x - boundingBox.min.x) voxelSize,
   gridDim (boundingBox.max.y - boundingBox.min.y) voxelSize,
   gridDim (boundingBox.max.z - boundingBox.min.z) voxelSize)

/-- The enumeration order of the triple loop in `VoxelGrid::initialize`:
`k` outermost, then `j`, then `i` (x fastest). -/
def cellIndices (nx ny nz : ℕ) : List (ℕ × ℕ × ℕ) :=
  (List.range nz).flatMap fun k =>
    (List.range ny).flatMap fun j =>
      (List.range nx).map fun i => (i, j, k)

/-- `VoxelGrid::getLinearIndex`: `i + j*nx + k*nx*ny`. -/
def getLinearIndex (nx ny : ℕ) (c : ℕ × ℕ × ℕ) : ℕ :=
  c.1 + c.2.1 * nx + c.2.2 * nx * ny

/-- All voxels of the grid in enumeration order. -/
def allVoxels (boundingBox : BoundingBox) (atoms : List Atom) (voxelSize : ℚ) :
    List Voxel :=
  (cellIndices (gridDims boundingBox voxelSize).1 (gridDims boundingBox voxelSize).2.1
      (gridDims boundingBox voxelSize).2.2).map
    fun c => mkVoxel boundingBox.min voxelSize atoms c.1 c.2.1 c.2.2

/-- One assignment step of the dense lookup table `voxelGrid_`: an
occupied voxel is written at its linear index
(`voxelGrid_[getLinearIndex(i,j,k)] = &occupiedVoxels_.back()`), an empty
voxel leaves the table unchanged (source lines 81-87). -/
def tableStep (boxMin : Point3D) (voxelSize : ℚ) (atoms : List Atom) (nx ny : ℕ)
    (tbl : ℕ → Option Voxel) (c : ℕ × ℕ × ℕ) : ℕ → Option Voxel :=
  let v := mkVoxel boxMin voxelSize atoms c.1 c.2.1 c.2.2
  if v.occupied then Function.update tbl (getLinearIndex nx ny c) (some v)
  else tbl

/-- The dense lookup table after the voxel-generation loop; initially all
`nullptr` (`none`). -/
def buildTable (boundingBox : BoundingBox) (atoms : List Atom) (voxelSize : ℚ) :
    ℕ → Option Voxel :=
  (cellIndices (gridDims boundingBox voxelSize).1 (gridDims boundingBox voxelSize).2.1
      (gridDims boundingBox voxelSize).2.2).foldl
    (tableStep boundingBox.min voxelSize atoms (gridDims boundingBox voxelSize).1
      (gridDims boundingBox voxelSize).2.1)
    fun _ => none

/-- The observable state of a constructed `VoxelGrid` (VoxelGrid.hpp):
bounding box, voxel size, dimensions, total count, the occupied and empty
voxel collections, and the dense lookup table. -/
structure VoxelGrid where
  boundingBox : BoundingBox
  voxelSize : ℚ
  dimensions : ℕ × ℕ × ℕ
  totalVoxels : ℕ
  occupiedVoxels : List Voxel
  emptyVoxels : List Voxel
  voxelTable : ℕ → Option Voxel

/-- `VoxelGrid::initialize`: dimensions, total count, the single loop that
routes every cell into the occupied or the empty collection (in
enumeration order) and populates the lookup table. -/
def buildGrid (boundingBox : BoundingBox) (atoms : List Atom) (voxelSize : ℚ) :
    VoxelGrid :=
  { boundingBox := boundingBox
    voxelSize := voxelSize
    dimensions := gridDims boundingBox voxelSize
    totalVoxels :=
      (gridDims boundingBox voxelSize).1 * (gridDims boundingBox voxelSize).2.1 *
        (gridDims boundingBox voxelSize).2.2
    occupiedVoxels := (allVoxels boundingBox atoms voxelSize).filter (·.occupied)
    emptyVoxels := (allVoxels boundingBox atoms voxelSize).filter fun v => !v.occupied
    voxelTable := buildTable boundingBox atoms voxelSize }

/-- The two construction failures of the grid path: `EmptyInput` is the
`std::runtime_error` of `BoundingBox::BoundingBox` on an empty atom
vector, `InvalidArgument` the `std::invalid_argument` of the `VoxelGrid`
constructors on `voxelSize <= 0`. -/
inductive ConstructError where
  | emptyInput
  | invalidArgument
deriving DecidableEq, Repr

/-- `VoxelGrid::VoxelGrid(atoms, voxelSize, padding)`: the member
initializer `boundingBox_(atoms, padding)` runs first (so an empty atom
list fails there), then the constructor body checks `voxelSize <= 0`. -/
def VoxelGrid.fromAtoms (atoms : List Atom) (voxelSize padding : ℚ) :
    Except ConstructError VoxelGrid :=
  match BoundingBox.construct atoms padding with
  | none => .error .emptyInput
  | some bb =>
    if voxelSize ≤ 0 then .error .invalidArgument
    else .ok (buildGrid bb atoms voxelSize)

/-- `VoxelGrid::VoxelGrid(boundingBox, atoms, voxelSize)`: copies the
given bounding box, checks `voxelSize <= 0`, then initializes. -/
def VoxelGrid.fromBox (boundingBox : BoundingBox) (atoms : List Atom)
    (voxelSize : ℚ) : Except ConstructError VoxelGrid :=
  if voxelSize ≤ 0 then .error .invalidArgument
  else .ok (buildGrid boundingBox atoms voxelSize)

/-- `VoxelGrid::getVoxel`: `nullptr` (`none`) outside the dimensions,
otherwise the lookup-table entry at the linear index. -/
def VoxelGrid.getVoxel (g : VoxelGrid) (i j k : ℤ) : Option Voxel :=
  if i < 0 ∨ (g.dimensions.1 : ℤ) ≤ i ∨ j < 0 ∨ (g.dimensions.2.1 : ℤ) ≤ j ∨
      k < 0 ∨ (g.dimensions.2.2 : ℤ) ≤ k then
    none
  else g.voxelTable (getLinearIndex g.dimensions.1 g.dimensions.2.1 (i.toNat, j.toNat, k.toNat))

section GridCounting

lemma length_flatMap_const {α β : Type} (l : List α) (f : α → List β) (n : ℕ)
    (h : ∀ a ∈ l, (f a).length = n) : (l.flatMap f).length = l.length * n := by
  induction l with
  | nil => simp
  | cons a l ih =>
    simp only [List.flatMap_cons, List.length_append, List.length_cons]
    rw [h a (List.mem_cons_self a l), ih fun b hb => h b (List.mem_cons_of_mem a hb)]
    ring

lemma length_cellIndices (nx ny nz : ℕ) :
    (cellIndices nx ny nz).length = nx * ny * nz := by
  unfold cellIndices
  rw [length_flatMap_const _ _ (ny * nx)]
  · simp only [List.length_range]; ring
  · intro k _
    rw [length_flatMap_const _ _ nx]
    · simp only [List.length_range]
    · intro j _
      simp

lemma length_allVoxels (bb : BoundingBox) (atoms : List Atom) (s : ℚ) :
    (allVoxels bb atoms s).length =
      (gridDims bb s).1 * (gridDims bb s).2.1 * (gridDims bb s).2.2 := by
  unfold allVoxels
  rw [List.length_map, length_cellIndices]

lemma buildGrid_counts (bb : BoundingBox) (atoms : List Atom) (s : ℚ) :
    (buildGrid bb atoms s).totalVoxels =
        (buildGrid bb atoms s).dimensions.1 * (buildGrid bb atoms s).dimensions.2.1 *
          (buildGrid bb atoms s).dimensions.2.2 ∧
      (buildGrid bb atoms s).totalVoxels =
        (buildGrid bb atoms s).occupiedVoxels.length +
          (buildGrid bb atoms s).emptyVoxels.length := by
  refine ⟨rfl, ?_⟩
  show (gridDims bb s).1 * (gridDims bb s).2.1 * (gridDims bb s).2.2 = _
  rw [← length_allVoxels bb atoms s]
  exact List.length_eq_length_filter_add fun v : Voxel => v.occupied

/-- Constructed through either `VoxelGrid` constructor. -/
def VoxelGrid.constructed (g : VoxelGrid) : Prop :=
  (∃ atoms voxelSize padding, VoxelGrid.fromAtoms atoms voxelSize padding = .ok g) ∨
  (∃ boundingBox atoms voxelSize, VoxelGrid.fromBox boundingBox atoms voxelSize = .ok g)

lemma constructed_eq_buildGrid {g : VoxelGrid} (h : g.constructed) :
    ∃ bb atoms s, g = buildGrid bb atoms s := by
  rcases h with ⟨atoms, s, padding, h⟩ | ⟨bb, atoms, s, h⟩
  · unfold VoxelGrid.fromAtoms at h
    rcases hc : BoundingBox.construct atoms padding with _ | bb <;> rw [hc] at h
    · cases h
    · dsimp only at h
      split at h
      · cases h
      · exact ⟨bb, atoms, s, (Except.ok.inj h).symm⟩
  · unfold VoxelGrid.fromBox at h
    split at h
    · cases h
    · exact ⟨bb, atoms, s, (Except.ok.inj h).symm⟩

end GridCounting

/-- C4: for every successfully constructed grid, `totalVoxels` equals the
product of the three grid dimensions and also equals
`occupiedCount + emptyCount`: every enumerated cell lands in exactly one
of the two collections. -/
theorem totalVoxelCount_partition (g : VoxelGrid) (h : g.constructed) :
    g.totalVoxels = g.dimensions.1 * g.dimensions.2.1 * g.dimensions.2.2 ∧
    g.totalVoxels = g.occupiedVoxels.length + g.emptyVoxels.length := by
  obtain ⟨bb, atoms, s, rfl⟩ := constructed_eq_buildGrid h
  exact buildGrid_counts bb atoms s

section Occupancy

lemma ok_eq_buildGrid {bb : BoundingBox} {atoms : List Atom} {s padding : ℚ}
    {g : VoxelGrid}
    (h : VoxelGrid.fromAtoms atoms s padding = .ok g ∨
         VoxelGrid.fromBox bb atoms s = .ok g) :
    ∃ bb2, g = buildGrid bb2 atoms s := by
  rcases h with h | h
  · unfold VoxelGrid.fromAtoms at h
    rcases hc : BoundingBox.construct atoms padding with _ | bb2 <;> rw [hc] at h
    · cases h
    · dsimp only at h
      split at h
      · cases h
      · exact ⟨bb2, (Except.ok.inj h).symm⟩
  · unfold VoxelGrid.fromBox at h
    split at h
    · cases h
    · exact ⟨bb, (Except.ok.inj h).symm⟩

lemma mem_allVoxels_shape {bb : BoundingBox} {atoms : List Atom} {s : ℚ} {v : Voxel}
    (hv : v ∈ allVoxels bb atoms s) :
    v.occupied = isVoxelOccupied v.center atoms ∧
    v.atomIds = intersectingAtomIds v.center atoms := by
  unfold allVoxels at hv
  rcases List.mem_map.1 hv with ⟨c, _, rfl⟩
  exact ⟨rfl, rfl⟩

lemma isVoxelOccupied_iff (c : Point3D) (atoms : List Atom) :
    isVoxelOccupied c atoms = true ↔
      ∃ a ∈ atoms, squaredDistance c a ≤ a.atomicRadius * a.atomicRadius := by
  unfold isVoxelOccupied intersectingAtomIds
  rw [Bool.not_eq_true', List.isEmpty_eq_false_iff_exists_mem]
  constructor
  · rintro ⟨i, hi⟩
    rcases List.mem_map.1 hi with ⟨a, ha, rfl⟩
    rcases List.mem_filter.1 ha with ⟨hmem, hp⟩
    exact ⟨a, hmem, of_decide_eq_true hp⟩
  · rintro ⟨a, hmem, hdist⟩
    exact ⟨a.id, List.mem_map_of_mem Atom.id
      (List.mem_filter.2 ⟨hmem, decide_eq_true hdist⟩)⟩

lemma mem_intersectingAtomIds (c : Point3D) (atoms : List Atom) (a : Atom)
    (ha : a ∈ atoms) (hdist : squaredDistance c a ≤ a.atomicRadius * a.atomicRadius) :
    a.id ∈ intersectingAtomIds c atoms :=
  List.mem_map_of_mem Atom.id (List.mem_filter.2 ⟨ha, decide_eq_true hdist⟩)

lemma intersectingAtomIds_ne_nil_iff (c : Point3D) (atoms : List Atom) :
    intersectingAtomIds c atoms ≠ [] ↔ isVoxelOccupied c atoms = true := by
  unfold isVoxelOccupied
  rw [Bool.not_eq_true', List.isEmpty_eq_false_iff_exists_mem]
  constructor
  · intro h
    rcases List.exists_mem_of_ne_nil _ h with ⟨i, hi⟩
    exact ⟨i, hi⟩
  · rintro ⟨i, hi⟩
    exact List.ne_nil_of_mem hi

end Occupancy

/-- C2: in a constructed grid, every cell is classified occupied iff the
squared distance from its center to some atom position is at most that
atom's squared radius; `atomIds` records the id of every atom whose
sphere contains the center; and `atomIds` is non-empty iff the voxel is
occupied. -/
theorem voxel_occupancy_classification (bb : BoundingBox) (atoms : List Atom)
    (s padding : ℚ) (g : VoxelGrid)
    (h : VoxelGrid.fromAtoms atoms s padding = .ok g ∨
         VoxelGrid.fromBox bb atoms s = .ok g)
    (v : Voxel) (hv : v ∈ g.occupiedVoxels ∨ v ∈ g.emptyVoxels) :
    (v.occupied = true ↔
      ∃ a ∈ atoms, squaredDistance v.center a ≤ a.atomicRadius * a.atomicRadius) ∧
    (∀ a ∈ atoms,
      squaredDistance v.center a ≤ a.atomicRadius * a.atomicRadius → a.id ∈ v.atomIds) ∧
    (v.atomIds ≠ [] ↔ v.occupied = true) := by
  obtain ⟨bb2, rfl⟩ := ok_eq_buildGrid h
  have hall : v ∈ allVoxels bb2 atoms s := by
    rcases hv with hv | hv
    · exact (List.mem_filter.1 hv).1
    · exact (List.mem_filter.1 hv).1
  obtain ⟨hocc, hids⟩ := mem_allVoxels_shape hall
  refine ⟨?_, ?_, ?_⟩
  · rw [hocc]; exact isVoxelOccupied_iff v.center atoms
  · intro a ha hdist
    rw [hids]; exact mem_intersectingAtomIds v.center atoms a ha hdist
  · rw [hids, hocc]; exact intersectingAtomIds_ne_nil_iff v.center atoms

/-- C9: constructing a grid from an existing bounding box with an empty
atom list and a positive voxel size succeeds, and the resulting grid
classifies every cell as empty: occupied count 0, empty count equal to
the total voxel count. -/
theorem fromBox_emptyAtoms_succeeds (bb : BoundingBox) (s : ℚ) (hs : 0 < s) :
    VoxelGrid.fromBox bb [] s = .ok (buildGrid bb [] s) ∧
    (buildGrid bb [] s).occupiedVoxels.length = 0 ∧
    (buildGrid bb [] s).emptyVoxels.length = (buildGrid bb [] s).totalVoxels := by
  have hocc : (buildGrid bb [] s).occupiedVoxels = [] := by
    apply List.filter_eq_nil_iff.2
    intro v hv
    obtain ⟨hshape, _⟩ := @mem_allVoxels_shape bb [] s v hv
    simp [hshape, isVoxelOccupied, intersectingAtomIds]
  refine ⟨?_, ?_, ?_⟩
  · unfold VoxelGrid.fromBox
    rw [if_neg (not_le.2 hs)]
  · rw [hocc]; rfl
  · have h2 := (buildGrid_counts bb [] s).2
    rw [hocc] at h2
    simpa using h2.symm

/-- The grid the witnesses use: bounding box `[-1,1]^3`, one unit-radius
atom at the origin, voxel size 1. -/
def gridW : VoxelGrid := buildGrid bbW [atomW] 1

/-- The witness voxel: cell (0,0,0) of `gridW`. -/
def voxelW : Voxel := mkVoxel bbW.min 1 [atomW] 0 0 0

theorem totalVoxelCount_partition_witness :
    gridW.totalVoxels = gridW.dimensions.1 * gridW.dimensions.2.1 * gridW.dimensions.2.2 ∧
    gridW.totalVoxels = gridW.occupiedVoxels.length + gridW.emptyVoxels.length :=
  totalVoxelCount_partition gridW (Or.inr ⟨bbW, [atomW], 1, rfl⟩)

unseal Rat.add Rat.mul Rat.inv Rat.sub in
theorem voxel_occupancy_classification_witness :
    (voxelW.occupied = true ↔
      ∃ a ∈ [atomW], squaredDistance voxelW.center a ≤ a.atomicRadius * a.atomicRadius) ∧
    (∀ a ∈ [atomW],
      squaredDistance voxelW.center a ≤ a.atomicRadius * a.atomicRadius →
        a.id ∈ voxelW.atomIds) ∧
    (voxelW.atomIds ≠ [] ↔ voxelW.occupied = true) :=
  voxel_occupancy_classification bbW [atomW] 1 0 gridW (Or.inr rfl) voxelW
    (Or.inl (by decide))

theorem fromBox_emptyAtoms_succeeds_witness :
    VoxelGrid.fromBox bbW [] 1 = .ok (buildGrid bbW [] 1) ∧
    (buildGrid bbW [] 1).occupiedVoxels.length = 0 ∧
    (buildGrid bbW [] 1).emptyVoxels.length = (buildGrid bbW [] 1).totalVoxels :=
  fromBox_emptyAtoms_succeeds bbW 1 (by decide)

section Monotonicity

lemma gridDim_nonpos_dim (d s : ℚ) (hd : d ≤ 0) (hs : 0 < s) : gridDim d s = 1 := by
  unfold gridDim
  have h1 : d / s ≤ 0 := div_nonpos_iff.2 (Or.inr ⟨hd, le_of_lt hs⟩)
  have h2 : (⌈d / s⌉ : ℤ) ≤ 0 := by
    calc (⌈d / s⌉ : ℤ) ≤ ⌈(0 : ℚ)⌉ := Int.ceil_le_ceil h1
      _ = 0 := Int.ceil_zero
  rw [max_eq_left (le_trans h2 (by norm_num))]
  rfl

lemma gridDim_antitone (d s₁ s₂ : ℚ) (hpos : 0 < s₂) (hle : s₂ ≤ s₁) :
    gridDim d s₁ ≤ gridDim d s₂ := by
  have hpos₁ : 0 < s₁ := lt_of_lt_of_le hpos hle
  rcases le_total d 0 with hd | hd
  · rw [gridDim_nonpos_dim d s₁ hd hpos₁, gridDim_nonpos_dim d s₂ hd hpos]
  · unfold gridDim
    apply Int.toNat_le_toNat
    apply max_le_max le_rfl
    exact Int.ceil_le_ceil (div_le_div_of_nonneg_left hd hpos hle)

end Monotonicity

/-- C7: for a fixed atom list and fixed padding, the total voxel count is
antitone in the voxel edge length: if both constructions succeed and
`s₂ ≤ s₁`, the grid built with the smaller size has at least as many
voxels. -/
theorem totalVoxelCount_antitone (atoms : List Atom) (padding s₁ s₂ : ℚ)
    (g₁ g₂ : VoxelGrid)
    (h₁ : VoxelGrid.fromAtoms atoms s₁ padding = .ok g₁)
    (h₂ : VoxelGrid.fromAtoms atoms s₂ padding = .ok g₂)
    (hle : s₂ ≤ s₁) : g₁.totalVoxels ≤ g₂.totalVoxels := by
  unfold VoxelGrid.fromAtoms at h₁ h₂
  rcases hc : BoundingBox.construct atoms padding with _ | bb <;> rw [hc] at h₁ h₂
  · cases h₁
  · dsimp only at h₁ h₂
    by_cases hs₁ : s₁ ≤ 0
    · rw [if_pos hs₁] at h₁; cases h₁
    · rw [if_neg hs₁] at h₁
      by_cases hs₂ : s₂ ≤ 0
      · rw [if_pos hs₂] at h₂; cases h₂
      · rw [if_neg hs₂] at h₂
        obtain rfl := (Except.ok.inj h₁).symm
        obtain rfl := (Except.ok.inj h₂).symm
        have hpos₂ : 0 < s₂ := not_le.1 hs₂
        show (gridDims bb s₁).1 * (gridDims bb s₁).2.1 * (gridDims bb s₁).2.2 ≤
          (gridDims bb s₂).1 * (gridDims bb s₂).2.1 * (gridDims bb s₂).2.2
        unfold gridDims
        exact Nat.mul_le_mul
          (Nat.mul_le_mul (gridDim_antitone _ s₁ s₂ hpos₂ hle)
            (gridDim_antitone _ s₁ s₂ hpos₂ hle))
          (gridDim_antitone _ s₁ s₂ hpos₂ hle)

unseal Rat.add Rat.mul Rat.inv Rat.sub in
theorem totalVoxelCount_antitone_witness :
    (buildGrid bbW [atomW] 1).totalVoxels ≤ (buildGrid bbW [atomW] (1 / 2)).totalVoxels :=
  totalVoxelCount_antitone [atomW] 0 1 (1 / 2)
    (buildGrid bbW [atomW] 1) (buildGrid bbW [atomW] (1 / 2))
    rfl rfl (by decide)

/-- C8 counterexample: with an empty atom list and voxel size 0 the
atoms-based constructor fails, but with `EmptyInput` (the bounding-box
member initializer throws before the body's voxel-size check), not with
`InvalidArgument` as the claim states for every input. -/
theorem fromAtoms_emptyList_zeroSize_not_invalidArgument :
    VoxelGrid.fromAtoms [] 0 0 = .error ConstructError.emptyInput ∧
    ConstructError.emptyInput ≠ ConstructError.invalidArgument :=
  ⟨rfl, by decide⟩

/-- C8 (amended): constructing with `voxelSize ≤ 0` always fails (no grid
is observable).  The failure is `InvalidArgument` for the bounding-box
constructor on any input and for the atoms constructor on any non-empty
atom list; for the atoms constructor on an empty list the bounding-box
`EmptyInput` failure occurs first. -/
theorem nonpositive_voxelSize_fails (s padding : ℚ) (hs : s ≤ 0) :
    (∀ bb atoms, VoxelGrid.fromBox bb atoms s = .error ConstructError.invalidArgument) ∧
    (∀ atoms, atoms ≠ [] →
      VoxelGrid.fromAtoms atoms s padding = .error ConstructError.invalidArgument) ∧
    (∀ atoms, VoxelGrid.fromAtoms atoms s padding = .error ConstructError.emptyInput ∨
      VoxelGrid.fromAtoms atoms s padding = .error ConstructError.invalidArgument) := by
  have hbox : ∀ bb atoms,
      VoxelGrid.fromBox bb atoms s = .error ConstructError.invalidArgument := by
    intro bb atoms
    unfold VoxelGrid.fromBox
    rw [if_pos hs]
  have hatoms : ∀ atoms, atoms ≠ [] →
      VoxelGrid.fromAtoms atoms s padding = .error ConstructError.invalidArgument := by
    intro atoms hne
    unfold VoxelGrid.fromAtoms
    match atoms, hne with
    | a :: rest, _ =>
      dsimp only [BoundingBox.construct]
      rw [if_pos hs]
  refine ⟨hbox, hatoms, ?_⟩
  intro atoms
  match atoms with
  | [] => exact Or.inl rfl
  | a :: rest => exact Or.inr (hatoms (a :: rest) (by simp))

theorem nonpositive_voxelSize_fails_witness :
    (∀ bb atoms, VoxelGrid.fromBox bb atoms 0 = .error ConstructError.invalidArgument) ∧
    (∀ atoms, atoms ≠ [] →
      VoxelGrid.fromAtoms atoms 0 0 = .error ConstructError.invalidArgument) ∧
    (∀ atoms, VoxelGrid.fromAtoms atoms 0 0 = .error ConstructError.emptyInput ∨
      VoxelGrid.fromAtoms atoms 0 0 = .error ConstructError.invalidArgument) :=
  nonpositive_voxelSize_fails 0 0 (by decide)

section TableLookup

lemma mem_cellIndices {nx ny nz : ℕ} {c : ℕ × ℕ × ℕ} :
    c ∈ cellIndices nx ny nz ↔ c.1 < nx ∧ c.2.1 < ny ∧ c.2.2 < nz := by
  obtain ⟨i, j, k⟩ := c
  simp only [cellIndices, List.mem_flatMap, List.mem_map, List.mem_range, Prod.mk.injEq]
  constructor
  · rintro ⟨k2, hk2, j2, hj2, i2, hi2, rfl, rfl, rfl⟩
    exact ⟨hi2, hj2, hk2⟩
  · rintro ⟨hi, hj, hk⟩
    exact ⟨k, hk, j, hj, i, hi, rfl, rfl, rfl⟩

lemma getLinearIndex_inj {nx ny : ℕ} {c d : ℕ × ℕ × ℕ}
    (hc1 : c.1 < nx) (hc2 : c.2.1 < ny) (hd1 : d.1 < nx) (hd2 : d.2.1 < ny)
    (h : getLinearIndex nx ny c = getLinearIndex nx ny d) : c = d := by
  obtain ⟨i, j, k⟩ := c
  obtain ⟨i2, j2, k2⟩ := d
  unfold getLinearIndex at h
  dsimp only at h hc1 hc2 hd1 hd2
  have hnx : 0 < nx := lt_of_le_of_lt (Nat.zero_le _) hc1
  have hny : 0 < ny := lt_of_le_of_lt (Nat.zero_le _) hc2
  have e1 : i + (j + k * ny) * nx = i2 + (j2 + k2 * ny) * nx := by
    calc i + (j + k * ny) * nx = i + j * nx + k * nx * ny := by ring
      _ = i2 + j2 * nx + k2 * nx * ny := h
      _ = i2 + (j2 + k2 * ny) * nx := by ring
  have hi : i = i2 := by
    have h2 := congrArg (· % nx) e1
    simpa [Nat.add_mul_mod_self_right, Nat.mod_eq_of_lt hc1, Nat.mod_eq_of_lt hd1]
      using h2
  subst hi
  have e3 : j + k * ny = j2 + k2 * ny :=
    Nat.eq_of_mul_eq_mul_right hnx (by omega)
  have hj : j = j2 := by
    have h3 := congrArg (· % ny) e3
    simpa [Nat.add_mul_mod_self_right, Nat.mod_eq_of_lt hc2, Nat.mod_eq_of_lt hd2]
      using h3
  subst hj
  have hk : k = k2 := Nat.eq_of_mul_eq_mul_right hny (by omega)
  simp [hk]

lemma nodup_cellIndices (nx ny nz : ℕ) : (cellIndices nx ny nz).Nodup := by
  unfold cellIndices
  refine List.nodup_flatMap.2 ⟨?_, ?_⟩
  · intro k _
    refine List.nodup_flatMap.2 ⟨?_, ?_⟩
    · intro j _
      exact (List.nodup_range nx).map fun a b hab => by simpa using hab
    · apply List.Pairwise.imp ?_ (List.pairwise_lt_range ny)
      intro j1 j2 hlt a ha1 ha2
      rcases List.mem_map.1 ha1 with ⟨i1, _, rfl⟩
      rcases List.mem_map.1 ha2 with ⟨i2, _, heq⟩
      have : j2 = j1 := by simpa using congrArg (fun p => p.2.1) heq
      omega
  · apply List.Pairwise.imp ?_ (List.pairwise_lt_range nz)
    intro k1 k2 hlt a ha1 ha2
    rcases List.mem_flatMap.1 ha1 with ⟨j1, _, hm1⟩
    rcases List.mem_flatMap.1 ha2 with ⟨j2, _, hm2⟩
    rcases List.mem_map.1 hm1 with ⟨i1, _, rfl⟩
    rcases List.mem_map.1 hm2 with ⟨i2, _, heq⟩
    have : k2 = k1 := by simpa using congrArg (fun p => p.2.2) heq
    omega

lemma nodup_linearIndices (nx ny nz : ℕ) :
    ((cellIndices nx ny nz).map (getLinearIndex nx ny)).Nodup := by
  apply List.Nodup.map_on ?_ (nodup_cellIndices nx ny nz)
  intro c hc d hd h
  rw [mem_cellIndices] at hc hd
  exact getLinearIndex_inj hc.1 hc.2.1 hd.1 hd.2.1 h

lemma foldl_tableStep_miss (bm : Point3D) (s : ℚ) (atoms : List Atom) (nx ny : ℕ)
    (cs : List (ℕ × ℕ × ℕ)) (tbl : ℕ → Option Voxel) (l : ℕ)
    (h : ∀ c ∈ cs, getLinearIndex nx ny c ≠ l) :
    cs.foldl (tableStep bm s atoms nx ny) tbl l = tbl l := by
  induction cs generalizing tbl with
  | nil => rfl
  | cons c cs ih =>
    rw [List.foldl_cons, ih _ fun d hd => h d (List.mem_cons_of_mem c hd)]
    unfold tableStep
    split
    · exact Function.update_noteq (fun he => h c (List.mem_cons_self c cs) he.symm) _ _
    · rfl

lemma foldl_tableStep_mem (bm : Point3D) (s : ℚ) (atoms : List Atom) (nx ny : ℕ)
    (cs : List (ℕ × ℕ × ℕ)) (hnd : (cs.map (getLinearIndex nx ny)).Nodup)
    (c : ℕ × ℕ × ℕ) (hc : c ∈ cs) (tbl : ℕ → Option Voxel)
    (htbl : tbl (getLinearIndex nx ny c) = none) :
    cs.foldl (tableStep bm s atoms nx ny) tbl (getLinearIndex nx ny c) =
      if (mkVoxel bm s atoms c.1 c.2.1 c.2.2).occupied then
        some (mkVoxel bm s atoms c.1 c.2.1 c.2.2)
      else none := by
  induction cs generalizing tbl with
  | nil => cases hc
  | cons c0 cs ih =>
    rw [List.map_cons, List.nodup_cons] at hnd
    obtain ⟨hnotin, hnd2⟩ := hnd
    rcases List.mem_cons.1 hc with rfl | hc2
    · rw [List.foldl_cons,
        foldl_tableStep_miss bm s atoms nx ny cs _ _
          fun d hd heq => hnotin (by rw [← heq]; exact List.mem_map_of_mem _ hd)]
      unfold tableStep
      split
      · exact Function.update_same _ _ _
      · exact htbl
    · rw [List.foldl_cons]
      apply ih hnd2 hc2
      unfold tableStep
      split
      · rw [Function.update_noteq
          (fun heq => hnotin (by rw [← heq]; exact List.mem_map_of_mem _ hc2)) _ _]
        exact htbl
      · exact htbl

lemma fromBox_ok {bb : BoundingBox} {atoms : List Atom} {s : ℚ} {g : VoxelGrid}
    (h : VoxelGrid.fromBox bb atoms s = .ok g) : g = buildGrid bb atoms s := by
  unfold VoxelGrid.fromBox at h
  split at h
  · cases h
  · exact (Except.ok.inj h).symm

end TableLookup

/-- C10: in a constructed grid, `getVoxel(i,j,k)` returns a non-absent
result iff `(i,j,k)` is within the grid dimensions and the cell there is
occupied; for an in-range empty cell it returns the same absent sentinel
(`none`) as for out-of-range coordinates. -/
theorem getVoxel_lookup_spec (bb : BoundingBox) (atoms : List Atom) (s : ℚ)
    (g : VoxelGrid) (h : VoxelGrid.fromBox bb atoms s = .ok g) (i j k : ℤ) :
    ((∃ v, g.getVoxel i j k = some v) ↔
      (0 ≤ i ∧ i < (g.dimensions.1 : ℤ) ∧ 0 ≤ j ∧ j < (g.dimensions.2.1 : ℤ) ∧
          0 ≤ k ∧ k < (g.dimensions.2.2 : ℤ)) ∧
        (mkVoxel bb.min s atoms i.toNat j.toNat k.toNat).occupied = true) ∧
    ((0 ≤ i ∧ i < (g.dimensions.1 : ℤ) ∧ 0 ≤ j ∧ j < (g.dimensions.2.1 : ℤ) ∧
          0 ≤ k ∧ k < (g.dimensions.2.2 : ℤ)) →
      (mkVoxel bb.min s atoms i.toNat j.toNat k.toNat).occupied = false →
      g.getVoxel i j k = none) ∧
    (¬(0 ≤ i ∧ i < (g.dimensions.1 : ℤ) ∧ 0 ≤ j ∧ j < (g.dimensions.2.1 : ℤ) ∧
          0 ≤ k ∧ k < (g.dimensions.2.2 : ℤ)) →
      g.getVoxel i j k = none) := by
  obtain rfl := fromBox_ok h
  set nx := (gridDims bb s).1 with hnx
  set ny := (gridDims bb s).2.1 with hny
  set nz := (gridDims bb s).2.2 with hnz
  have hdim : (buildGrid bb atoms s).dimensions = (nx, ny, nz) := rfl
  by_cases hin : 0 ≤ i ∧ i < (nx : ℤ) ∧ 0 ≤ j ∧ j < (ny : ℤ) ∧ 0 ≤ k ∧ k < (nz : ℤ)
  · have hguard : ¬(i < 0 ∨ (nx : ℤ) ≤ i ∨ j < 0 ∨ (ny : ℤ) ≤ j ∨ k < 0 ∨ (nz : ℤ) ≤ k) := by
      omega
    have hget : (buildGrid bb atoms s).getVoxel i j k =
        buildTable bb atoms s (getLinearIndex nx ny (i.toNat, j.toNat, k.toNat)) := by
      unfold VoxelGrid.getVoxel
      rw [hdim]
      exact if_neg hguard
    have hmem : (i.toNat, j.toNat, k.toNat) ∈ cellIndices nx ny nz := by
      rw [mem_cellIndices]
      exact ⟨show i.toNat < nx by omega, show j.toNat < ny by omega,
        show k.toNat < nz by omega⟩
    have htab : buildTable bb atoms s (getLinearIndex nx ny (i.toNat, j.toNat, k.toNat)) =
        if (mkVoxel bb.min s atoms i.toNat j.toNat k.toNat).occupied then
          some (mkVoxel bb.min s atoms i.toNat j.toNat k.toNat)
        else none := by
      unfold buildTable
      exact foldl_tableStep_mem bb.min s atoms nx ny (cellIndices nx ny nz)
        (nodup_linearIndices nx ny nz) (i.toNat, j.toNat, k.toNat) hmem _ rfl
    rw [hdim] at *
    refine ⟨?_, ?_, ?_⟩
    · constructor
      · rintro ⟨v, hv⟩
        rw [hget, htab] at hv
        refine ⟨hin, ?_⟩
        by_contra hocc
        rw [if_neg hocc] at hv
        cases hv
      · rintro ⟨_, hocc⟩
        exact ⟨_, by rw [hget, htab, if_pos hocc]⟩
    · intro _ hocc
      rw [hget, htab, if_neg (by rw [hocc]; exact Bool.false_ne_true)]
    · intro hcon
      exact absurd hin hcon
  · have hguard : i < 0 ∨ (nx : ℤ) ≤ i ∨ j < 0 ∨ (ny : ℤ) ≤ j ∨ k < 0 ∨ (nz : ℤ) ≤ k := by
      omega
    have hget : (buildGrid bb atoms s).getVoxel i j k = none := by
      unfold VoxelGrid.getVoxel
      rw [hdim]
      exact if_pos hguard
    rw [hdim] at *
    refine ⟨?_, ?_, ?_⟩
    · constructor
      · rintro ⟨v, hv⟩
        rw [hget] at hv
        cases hv
      · rintro ⟨hin2, _⟩
        exact absurd hin2 hin
    · intro hin2
      exact absurd hin2 hin
    · intro _
      exact hget

unseal Rat.add Rat.mul Rat.inv Rat.sub in
theorem getVoxel_lookup_spec_witness : ∃ v, gridW.getVoxel 0 0 0 = some v :=
  (getVoxel_lookup_spec bbW [atomW] 1 gridW rfl 0 0 0).1.2 ⟨by decide, by decide⟩

/-- The tolerance of `Point3DEqual` (HexMesh.hpp): `1e-12`. -/
def epsilon : ℚ := 1 / 10 ^ 12

/-- `Point3DEqual::operator()` (HexMesh.hpp): approximate equality,
every axis differs by less than `epsilon`. -/
def point3DEqual (lhs rhs : Point3D) : Bool :=
  decide (|lhs.x - rhs.x| < epsilon) && decide (|lhs.y - rhs.y| < epsilon) &&
    decide (|lhs.z - rhs.z| < epsilon)

/-- `HexMesh` (HexMesh.hpp): unique node coordinates plus element
connectivity (8 node indices per hexahedron). -/
structure HexMesh where
  nodes : List Point3D
  elements : List (List ℕ)
deriving DecidableEq, Repr

/-- The mutable state of `EmptyVoxelMeshGenerator::assignUniqueNodeIndices`:
the dedup map `nodeMap` (an `unordered_map` keyed by coordinate with
comparator `Point3DEqual` and hash `Point3DHash`), the `uniqueNodes`
list, and `nextNodeIndex`. -/
structure DedupState where
  nodeMap : List (Point3D × ℕ)
  uniqueNodes : List Point3D
  nextNodeIndex : ℕ
deriving DecidableEq, Repr

/-- `nodeMap.find(corner)` under the container's hash/equality
consistency precondition: a stored entry whose key compares equal to
`corner` under `Point3DEqual`, or `none`.  This is the map semantics the
container guarantees only while the hash agrees on comparator-equal
keys.  `Point3DHash` hashes the three exact coordinate values
(`std::hash<double>` of the bits), so that precondition holds exactly
when the keys inserted so far contain no two distinct within-tolerance
coordinates — true for every corner stream whose distinct coordinates
are at least `1e-12` apart, and violated (undefined container behavior,
lookups can miss within-tolerance keys) below that.  `findNodeBitwise`
below models the effective bucketed behavior in the violated regime. -/
def findNode (nodeMap : List (Point3D × ℕ)) (corner : Point3D) : Option ℕ :=
  (nodeMap.find? fun e => point3DEqual e.1 corner).map Prod.snd

/-- The per-corner body of the dedup loop (source lines 76-91): reuse the
stored index when the map already holds the corner, otherwise assign
`nextNodeIndex`, append the corner to `uniqueNodes` and insert it into
the map. -/
def insertCorner (st : DedupState) (corner : Point3D) : DedupState × ℕ :=
  match findNode st.nodeMap corner with
  | some idx => (st, idx)
  | none =>
    ({ nodeMap := st.nodeMap ++ [(corner, st.nextNodeIndex)]
       uniqueNodes := st.uniqueNodes ++ [corner]
       nextNodeIndex := st.nextNodeIndex + 1 },
     st.nextNodeIndex)

/-- The inner loop over one element's 8 corners, producing its
connectivity record. -/
def processElement (st : DedupState) (corners : List Point3D) :
    DedupState × List ℕ :=
  corners.foldl
    (fun acc corner =>
      ((insertCorner acc.1 corner).1, acc.2 ++ [(insertCorner acc.1 corner).2]))
    (st, [])

/-- `EmptyVoxelMeshGenerator::assignUniqueNodeIndices`: the strictly
sequential dedup loop over the per-element corner arrays, returning the
final state (its `uniqueNodes` list) and the element connectivity list. -/
def assignUniqueNodeIndices (cornerNodes : List (List Point3D)) :
    DedupState × List (List ℕ) :=
  cornerNodes.foldl
    (fun acc corners =>
      ((processElement acc.1 corners).1, acc.2 ++ [(processElement acc.1 corners).2]))
    (⟨[], [], 0⟩, [])

/-- Steps 1-2 of `EmptyVoxelMeshGenerator::generateHexMesh` on a voxel
collection: per-voxel corner computation followed by dedup/index
assignment.  (An empty collection yields the empty mesh, as the early
return does.) -/
def meshFromVoxels (voxels : List Voxel) : HexMesh :=
  { nodes := (assignUniqueNodeIndices (voxels.map computeCornerNodes)).1.uniqueNodes
    elements := (assignUniqueNodeIndices (voxels.map computeCornerNodes)).2 }

/-- `EmptyVoxelMeshGenerator::generateHexMesh`: the mesh built from the
grid's empty-voxel collection. -/
def generateHexMesh (voxelGrid : VoxelGrid) : HexMesh :=
  meshFromVoxels voxelGrid.emptyVoxels

section NodeUniqueness

/-- Invariant of the dedup state: the map keys are exactly the unique
nodes (in insertion order), and no two stored nodes compare equal under
`Point3DEqual`. -/
def GoodState (st : DedupState) : Prop :=
  st.nodeMap.map Prod.fst = st.uniqueNodes ∧
  st.uniqueNodes.Pairwise fun a b => point3DEqual a b = false

lemma goodState_init : GoodState ⟨[], [], 0⟩ :=
  ⟨rfl, List.Pairwise.nil⟩

lemma insertCorner_good {st : DedupState} (c : Point3D) (h : GoodState st) :
    GoodState (insertCorner st c).1 := by
  unfold insertCorner
  cases hf : findNode st.nodeMap c with
  | some idx => exact h
  | none =>
    unfold findNode at hf
    rw [Option.map_eq_none'] at hf
    have hall : ∀ e ∈ st.nodeMap, point3DEqual e.1 c = false := by
      intro e he
      cases hb : point3DEqual e.1 c
      · rfl
      · exact absurd hb (List.find?_eq_none.1 hf e he)
    refine ⟨?_, ?_⟩
    · show (st.nodeMap ++ [(c, st.nextNodeIndex)]).map Prod.fst = st.uniqueNodes ++ [c]
      rw [List.map_append, h.1]
      rfl
    · show (st.uniqueNodes ++ [c]).Pairwise fun a b => point3DEqual a b = false
      rw [List.pairwise_append]
      refine ⟨h.2, List.pairwise_singleton _ _, ?_⟩
      intro a ha b hb
      rw [List.mem_singleton] at hb
      subst hb
      rw [← h.1] at ha
      rcases List.mem_map.1 ha with ⟨e, he, rfl⟩
      exact hall e he

lemma foldl_corner_good (cs : List Point3D) (acc : DedupState × List ℕ)
    (h : GoodState acc.1) :
    GoodState
      (cs.foldl
        (fun acc corner =>
          ((insertCorner acc.1 corner).1, acc.2 ++ [(insertCorner acc.1 corner).2]))
        acc).1 := by
  induction cs generalizing acc with
  | nil => exact h
  | cons c cs ih => exact ih _ (insertCorner_good c h)

lemma processElement_good (st : DedupState) (cs : List Point3D)
    (h : GoodState st) : GoodState (processElement st cs).1 :=
  foldl_corner_good cs (st, []) h

lemma foldl_element_good (ces : List (List Point3D)) (acc : DedupState × List (List ℕ))
    (h : GoodState acc.1) :
    GoodState
      (ces.foldl
        (fun acc corners =>
          ((processElement acc.1 corners).1, acc.2 ++ [(processElement acc.1 corners).2]))
        acc).1 := by
  induction ces generalizing acc with
  | nil => exact h
  | cons cs ces ih => exact ih _ (processElement_good _ cs h)

lemma assignUniqueNodeIndices_good (ces : List (List Point3D)) :
    GoodState (assignUniqueNodeIndices ces).1 :=
  foldl_element_good ces (⟨[], [], 0⟩, []) goodState_init

lemma point3DEqual_false_spread {a b : Point3D} (h : point3DEqual a b = false) :
    epsilon ≤ |a.x - b.x| ∨ epsilon ≤ |a.y - b.y| ∨ epsilon ≤ |a.z - b.z| := by
  unfold point3DEqual at h
  simp only [Bool.and_eq_false_iff, decide_eq_false_iff_not, not_lt] at h
  tauto

end NodeUniqueness

/-- Global node uniqueness under the consistency-precondition map
semantics (`findNode`): any two nodes at distinct indices differ by
`1e-12` or more on at least one axis.  For the source this is the
behavior only while the dedup map's hash/equality precondition holds
(no two distinct within-tolerance keys, e.g. corner spacing ≥ `1e-12`);
`generateHexMeshBitwise_duplicate_nodes` below shows the invariant is
lost below that, where `Point3DHash` is inconsistent with the
comparator. -/
theorem generateHexMesh_global_node_uniqueness (g : VoxelGrid) (p q : ℕ)
    (hp : p < (generateHexMesh g).nodes.length)
    (hq : q < (generateHexMesh g).nodes.length) (hpq : p ≠ q) :
    epsilon ≤
        |((generateHexMesh g).nodes.get ⟨p, hp⟩).x -
          ((generateHexMesh g).nodes.get ⟨q, hq⟩).x| ∨
      epsilon ≤
        |((generateHexMesh g).nodes.get ⟨p, hp⟩).y -
          ((generateHexMesh g).nodes.get ⟨q, hq⟩).y| ∨
      epsilon ≤
        |((generateHexMesh g).nodes.get ⟨p, hp⟩).z -
          ((generateHexMesh g).nodes.get ⟨q, hq⟩).z| := by
  have hgood := assignUniqueNodeIndices_good (g.emptyVoxels.map computeCornerNodes)
  have hpw := List.pairwise_iff_get.1 hgood.2
  rcases Nat.lt_or_ge p q with hlt | hge
  · exact point3DEqual_false_spread (hpw ⟨p, hp⟩ ⟨q, hq⟩ (Fin.mk_lt_mk.2 hlt))
  · have hlt : q < p := lt_of_le_of_ne hge (Ne.symm hpq)
    have h2 := point3DEqual_false_spread (hpw ⟨q, hq⟩ ⟨p, hp⟩ (Fin.mk_lt_mk.2 hlt))
    rcases h2 with h2 | h2 | h2
    · left; rw [abs_sub_comm]; exact h2
    · right; left; rw [abs_sub_comm]; exact h2
    · right; right; rw [abs_sub_comm]; exact h2

/-- A unit-cube voxel used by the mesh witnesses. -/
def voxelU : Voxel :=
  { index := (0, 0, 0), center := ⟨1 / 2, 1 / 2, 1 / 2⟩, min := ⟨0, 0, 0⟩,
    max := ⟨1, 1, 1⟩, occupied := false, atomIds := [] }

/-- A grid whose empty-voxel collection is the single unit cube. -/
def gridMeshW : VoxelGrid :=
  { boundingBox := { min := ⟨0, 0, 0⟩, max := ⟨1, 1, 1⟩ }, voxelSize := 1,
    dimensions := (1, 1, 1), totalVoxels := 1, occupiedVoxels := [],
    emptyVoxels := [voxelU], voxelTable := fun _ => none }

unseal Rat.add Rat.mul Rat.inv Rat.sub in
theorem generateHexMesh_global_node_uniqueness_witness :
    epsilon ≤
        |((generateHexMesh gridMeshW).nodes.get ⟨0, by decide⟩).x -
          ((generateHexMesh gridMeshW).nodes.get ⟨1, by decide⟩).x| ∨
      epsilon ≤
        |((generateHexMesh gridMeshW).nodes.get ⟨0, by decide⟩).y -
          ((generateHexMesh gridMeshW).nodes.get ⟨1, by decide⟩).y| ∨
      epsilon ≤
        |((generateHexMesh gridMeshW).nodes.get ⟨0, by decide⟩).z -
          ((generateHexMesh gridMeshW).nodes.get ⟨1, by decide⟩).z| :=
  generateHexMesh_global_node_uniqueness gridMeshW 0 1 (by decide) (by decide)
    (by decide)

section FaceSharing

/-- Proof scaffolding for the face-sharing scenario: the lattice point
`base + t·s` (componentwise). -/
def latticePoint (base : Point3D) (s : ℚ) (t : ℤ × ℤ × ℤ) : Point3D :=
  ⟨base.x + t.1 * s, base.y + t.2.1 * s, base.z + t.2.2 * s⟩

/-- Proof scaffolding: first-occurrence dedup step on integer triples,
mirroring `insertCorner` under the lattice embedding. -/
def absStep (ts : List (ℤ × ℤ × ℤ)) (t : ℤ × ℤ × ℤ) : List (ℤ × ℤ × ℤ) :=
  if t ∈ ts then ts else ts ++ [t]

/-- Proof scaffolding: the 8 canonical cube corners of the unit cube at
lattice position `t`, in the order of `computeCornerNodes`. -/
def unitCorners (t : ℤ × ℤ × ℤ) : List (ℤ × ℤ × ℤ) :=
  [(t.1, t.2.1, t.2.2), (t.1 + 1, t.2.1, t.2.2), (t.1 + 1, t.2.1 + 1, t.2.2),
   (t.1, t.2.1 + 1, t.2.2), (t.1, t.2.1, t.2.2 + 1), (t.1 + 1, t.2.1, t.2.2 + 1),
   (t.1 + 1, t.2.1 + 1, t.2.2 + 1), (t.1, t.2.1 + 1, t.2.2 + 1)]

lemma epsilon_pos : (0 : ℚ) < epsilon := by norm_num [epsilon]

lemma lattice_axis {s : ℚ} (hs : epsilon ≤ s) (x : ℚ) (a b : ℤ) :
    |x + a * s - (x + b * s)| < epsilon ↔ a = b := by
  have h0 : (0 : ℚ) < epsilon := epsilon_pos
  have hsub : x + a * s - (x + b * s) = ((a - b : ℤ) : ℚ) * s := by push_cast; ring
  rw [hsub]
  constructor
  · intro h
    by_contra hne
    have h1 : (1 : ℚ) ≤ |((a - b : ℤ) : ℚ)| := by
      rw [← Int.cast_abs]
      exact_mod_cast Int.one_le_abs (sub_ne_zero.2 hne)
    have h2 : epsilon ≤ |((a - b : ℤ) : ℚ) * s| := by
      rw [abs_mul, abs_of_pos (lt_of_lt_of_le h0 hs)]
      calc epsilon = 1 * epsilon := (one_mul _).symm
        _ ≤ |((a - b : ℤ) : ℚ)| * s :=
          mul_le_mul h1 hs (le_of_lt h0) (le_trans zero_le_one h1)
    linarith
  · rintro rfl
    simpa using h0

lemma point3DEqual_lattice {base : Point3D} {s : ℚ} (hs : epsilon ≤ s)
    (t u : ℤ × ℤ × ℤ) :
    point3DEqual (latticePoint base s t) (latticePoint base s u) = true ↔ t = u := by
  obtain ⟨t1, t2, t3⟩ := t
  obtain ⟨u1, u2, u3⟩ := u
  unfold point3DEqual latticePoint
  simp only [Bool.and_eq_true, decide_eq_true_eq]
  rw [lattice_axis hs, lattice_axis hs, lattice_axis hs]
  constructor
  · rintro ⟨⟨rfl, rfl⟩, rfl⟩
    rfl
  · rintro h
    injection h with h1 h2
    injection h2 with h2 h3
    exact ⟨⟨h1, h2⟩, h3⟩

/-- Correspondence between the dedup state and its integer-lattice
abstraction. -/
def LatticeSim (base : Point3D) (s : ℚ) (st : DedupState)
    (ts : List (ℤ × ℤ × ℤ)) : Prop :=
  st.nodeMap.map Prod.fst = ts.map (latticePoint base s) ∧
  st.uniqueNodes = ts.map (latticePoint base s)

lemma insertCorner_sim {base : Point3D} {s : ℚ} (hs : epsilon ≤ s)
    {st : DedupState} {ts : List (ℤ × ℤ × ℤ)} (h : LatticeSim base s st ts)
    (t : ℤ × ℤ × ℤ) :
    LatticeSim base s (insertCorner st (latticePoint base s t)).1 (absStep ts t) := by
  unfold insertCorner absStep
  cases hf : findNode st.nodeMap (latticePoint base s t) with
  | some idx =>
    have hmem : t ∈ ts := by
      unfold findNode at hf
      rcases Option.map_eq_some'.1 hf with ⟨e, he, _⟩
      have hpe := List.find?_some he
      have hekey : e.1 ∈ st.nodeMap.map Prod.fst :=
        List.mem_map_of_mem Prod.fst (List.mem_of_find?_eq_some he)
      rw [h.1] at hekey
      rcases List.mem_map.1 hekey with ⟨u, hu, hue⟩
      rw [← hue] at hpe
      obtain rfl := (point3DEqual_lattice hs u t).1 hpe
      exact hu
    rw [if_pos hmem]
    exact h
  | none =>
    have hnmem : t ∉ ts := by
      intro hmem
      unfold findNode at hf
      rw [Option.map_eq_none'] at hf
      have hin : latticePoint base s t ∈ st.nodeMap.map Prod.fst := by
        rw [h.1]
        exact List.mem_map_of_mem _ hmem
      rcases List.mem_map.1 hin with ⟨e, he, hekey⟩
      have hne := List.find?_eq_none.1 hf e he
      rw [hekey] at hne
      exact hne ((point3DEqual_lattice hs t t).2 rfl)
    rw [if_neg hnmem]
    refine ⟨?_, ?_⟩
    · show (st.nodeMap ++ [(latticePoint base s t, st.nextNodeIndex)]).map Prod.fst = _
      rw [List.map_append, h.1, List.map_append]
      rfl
    · show st.uniqueNodes ++ [latticePoint base s t] = _
      rw [List.map_append, h.2]
      rfl

lemma foldl_corner_state (cs : List Point3D) (acc : DedupState × List ℕ) :
    (cs.foldl
        (fun acc corner =>
          ((insertCorner acc.1 corner).1, acc.2 ++ [(insertCorner acc.1 corner).2]))
        acc).1 =
      cs.foldl (fun st c => (insertCorner st c).1) acc.1 := by
  induction cs generalizing acc with
  | nil => rfl
  | cons c cs ih => exact ih _

lemma processElement_state (st : DedupState) (cs : List Point3D) :
    (processElement st cs).1 = cs.foldl (fun st2 c => (insertCorner st2 c).1) st :=
  foldl_corner_state cs (st, [])

lemma foldl_element_state (ces : List (List Point3D)) (acc : DedupState × List (List ℕ)) :
    (ces.foldl
        (fun acc corners =>
          ((processElement acc.1 corners).1, acc.2 ++ [(processElement acc.1 corners).2]))
        acc).1 =
      ces.foldl (fun st cs => (processElement st cs).1) acc.1 := by
  induction ces generalizing acc with
  | nil => rfl
  | cons cs ces ih => exact ih _

lemma assign_state (ces : List (List Point3D)) :
    (assignUniqueNodeIndices ces).1 =
      (ces.flatten).foldl (fun st c => (insertCorner st c).1) ⟨[], [], 0⟩ := by
  unfold assignUniqueNodeIndices
  rw [foldl_element_state, List.foldl_flatten]
  simp only [processElement_state]

lemma foldl_insert_sim {base : Point3D} {s : ℚ} (hs : epsilon ≤ s)
    (T : List (ℤ × ℤ × ℤ)) {st : DedupState} {ts : List (ℤ × ℤ × ℤ)}
    (h : LatticeSim base s st ts) :
    LatticeSim base s
      ((T.map (latticePoint base s)).foldl (fun st2 c => (insertCorner st2 c).1) st)
      (T.foldl absStep ts) := by
  induction T generalizing st ts with
  | nil => exact h
  | cons t T ih => exact ih (insertCorner_sim hs h t)

lemma mesh_nodes_lattice {base : Point3D} {s : ℚ} (hs : epsilon ≤ s)
    (vs : List Voxel) (T : List (ℤ × ℤ × ℤ))
    (hT : (vs.map computeCornerNodes).flatten = T.map (latticePoint base s)) :
    (meshFromVoxels vs).nodes = (T.foldl absStep []).map (latticePoint base s) := by
  show (assignUniqueNodeIndices (vs.map computeCornerNodes)).1.uniqueNodes = _
  rw [assign_state, hT]
  exact (@foldl_insert_sim base s hs T ⟨[], [], 0⟩ [] ⟨rfl, rfl⟩).2

lemma foldl_element_count (ces : List (List Point3D)) (acc : DedupState × List (List ℕ)) :
    (ces.foldl
        (fun acc corners =>
          ((processElement acc.1 corners).1, acc.2 ++ [(processElement acc.1 corners).2]))
        acc).2.length = acc.2.length + ces.length := by
  induction ces generalizing acc with
  | nil => rfl
  | cons cs ces ih =>
    rw [List.foldl_cons, ih]
    simp only [List.length_append, List.length_cons, List.length_nil]
    omega

lemma meshFromVoxels_elementCount (vs : List Voxel) :
    (meshFromVoxels vs).elements.length = vs.length := by
  show (assignUniqueNodeIndices (vs.map computeCornerNodes)).2.length = _
  unfold assignUniqueNodeIndices
  rw [foldl_element_count]
  simp

lemma cube_corners_lattice {v : Voxel} {base : Point3D} {s : ℚ} {t : ℤ × ℤ × ℤ}
    (hmin : v.min = ⟨base.x + t.1 * s, base.y + t.2.1 * s, base.z + t.2.2 * s⟩)
    (hmax : v.max = ⟨v.min.x + s, v.min.y + s, v.min.z + s⟩) :
    computeCornerNodes v = (unitCorners t).map (latticePoint base s) := by
  obtain ⟨t1, t2, t3⟩ := t
  rw [computeCornerNodes, hmax, hmin, unitCorners]
  simp only [List.map, latticePoint, List.cons.injEq, Point3D.mk.injEq, and_true]
  push_cast
  ring_nf
  simp

end FaceSharing

/-- Scenario D in the regime the dedup map is well defined: for two
equal-size axis-aligned cubic voxels that share exactly one face, with
edge length at least the dedup tolerance `1e-12`, the generated mesh has
`nodeCount = 12` (8+8-4 shared face corners) and `elementCount = 2`.
With that edge bound, comparator-equality coincides with exact equality
on every key the dedup encounters, so the hash precondition holds and
the source's bucketed map, `findNode`, and `findNodeBitwise` all agree.
The direction `d` ranges over the six axis unit vectors, so the shared
face may be any of the six cube faces. -/
theorem two_face_adjacent_cubes_mesh (v1 v2 : Voxel) (p : Point3D) (s : ℚ)
    (d : ℤ × ℤ × ℤ) (hs : epsilon ≤ s)
    (hd : d ∈ ([(1, 0, 0), (-1, 0, 0), (0, 1, 0), (0, -1, 0), (0, 0, 1), (0, 0, -1)] :
      List (ℤ × ℤ × ℤ)))
    (h1min : v1.min = p)
    (h1max : v1.max = ⟨v1.min.x + s, v1.min.y + s, v1.min.z + s⟩)
    (h2min : v2.min = ⟨p.x + (d.1 : ℚ) * s, p.y + (d.2.1 : ℚ) * s, p.z + (d.2.2 : ℚ) * s⟩)
    (h2max : v2.max = ⟨v2.min.x + s, v2.min.y + s, v2.min.z + s⟩) :
    (meshFromVoxels [v1, v2]).nodes.length = 12 ∧
      (meshFromVoxels [v1, v2]).elements.length = 2 := by
  obtain ⟨px, py, pz⟩ := p
  have h1lat : v1.min =
      ⟨px + ((0 : ℤ) : ℚ) * s, py + ((0 : ℤ) : ℚ) * s, pz + ((0 : ℤ) : ℚ) * s⟩ := by
    rw [h1min]
    norm_num
  have hc1 := @cube_corners_lattice v1 ⟨px, py, pz⟩ s (0, 0, 0) h1lat h1max
  have hc2 := @cube_corners_lattice v2 ⟨px, py, pz⟩ s d h2min h2max
  have hT : ([v1, v2].map computeCornerNodes).flatten =
      (unitCorners (0, 0, 0) ++ unitCorners d).map (latticePoint ⟨px, py, pz⟩ s) := by
    simp only [List.map_cons, List.map_nil, List.flatten_cons, List.flatten_nil,
      List.map_append, List.append_nil, hc1, hc2]
  have hnodes := mesh_nodes_lattice hs [v1, v2] _ hT
  constructor
  · rw [hnodes, List.length_map]
    fin_cases hd <;> decide
  · rw [meshFromVoxels_elementCount]
    rfl

/-- Unit cubes sharing the face `x = 1`, used as the C5 witness input. -/
def cubeA : Voxel :=
  { index := (0, 0, 0), center := ⟨0, 0, 0⟩, min := ⟨0, 0, 0⟩, max := ⟨1, 1, 1⟩,
    occupied := false, atomIds := [] }

/-- See `cubeA`. -/
def cubeB : Voxel :=
  { index := (0, 0, 0), center := ⟨0, 0, 0⟩, min := ⟨1, 0, 0⟩, max := ⟨2, 1, 1⟩,
    occupied := false, atomIds := [] }

unseal Rat.add Rat.mul Rat.inv Rat.sub in
theorem two_face_adjacent_cubes_mesh_witness :
    (meshFromVoxels [cubeA, cubeB]).nodes.length = 12 ∧
      (meshFromVoxels [cubeA, cubeB]).elements.length = 2 :=
  two_face_adjacent_cubes_mesh cubeA cubeB ⟨0, 0, 0⟩ 1 (1, 0, 0) (by decide)
    (by decide) rfl (by decide) (by decide) (by decide)

/-- Two equal-size face-adjacent cubic voxels with edge length `1e-13`,
below the `1e-12` dedup tolerance: `tinyVoxelB.min` is `tinyVoxelA`'s max-x
face corner, and both cubes have edge `1e-13` on every axis.  At this
spacing the dedup map receives within-tolerance but distinct keys, where
`Point3DHash` is inconsistent with `Point3DEqual` and the container's
behavior is no longer guaranteed. -/
def tinyVoxelA : Voxel :=
  { index := (0, 0, 0), center := ⟨0, 0, 0⟩, min := ⟨0, 0, 0⟩,
    max := ⟨1 / 10 ^ 13, 1 / 10 ^ 13, 1 / 10 ^ 13⟩, occupied := false, atomIds := [] }

/-- See `tinyVoxelA`. -/
def tinyVoxelB : Voxel :=
  { index := (0, 0, 0), center := ⟨0, 0, 0⟩, min := ⟨1 / 10 ^ 13, 0, 0⟩,
    max := ⟨2 / 10 ^ 13, 1 / 10 ^ 13, 1 / 10 ^ 13⟩, occupied := false, atomIds := [] }

unseal Rat.add Rat.mul Rat.inv Rat.sub in
/-- Below the tolerance the two map semantics diverge: under the
consistency-precondition semantics (`findNode`, the spec's dedup
description) all 16 corners of the two tiny cubes merge into a single
node.  Under the effective bucketed behavior of the bit-based hash
(`meshFromVoxelsBitwise`) the within-tolerance corners stay distinct
(see `generateHexMeshBitwise_duplicate_nodes`).  The source's actual
result there is undefined behavior (hash requirement violated). -/
theorem two_face_adjacent_tiny_cubes_specSemantics :
    (tinyVoxelB.min = ⟨tinyVoxelA.max.x, tinyVoxelA.min.y, tinyVoxelA.min.z⟩ ∧
      tinyVoxelA.max =
        ⟨tinyVoxelA.min.x + 1 / 10 ^ 13, tinyVoxelA.min.y + 1 / 10 ^ 13,
          tinyVoxelA.min.z + 1 / 10 ^ 13⟩ ∧
      tinyVoxelB.max =
        ⟨tinyVoxelB.min.x + 1 / 10 ^ 13, tinyVoxelB.min.y + 1 / 10 ^ 13,
          tinyVoxelB.min.z + 1 / 10 ^ 13⟩) ∧
    (meshFromVoxels [tinyVoxelA, tinyVoxelB]).elements.length = 2 ∧
    (meshFromVoxels [tinyVoxelA, tinyVoxelB]).nodes.length = 1 ∧
    (meshFromVoxels [tinyVoxelA, tinyVoxelB]).nodes.length ≠ 12 := by
  exact ⟨by decide, by decide, by decide, by decide⟩

/-- The effective behavior of `nodeMap.find(corner)` with the source's
actual hash (`Point3DHash`, HexMesh.hpp lines 44-54): the hash combines
`std::hash<double>` of the three exact coordinate values
(`h1 ^ (h2 << 1) ^ (h3 << 2)`), so two keys reach the same bucket — and
can be compared by `Point3DEqual` at all — precisely when their
coordinate values are identical (accidental bucket collisions between
unrelated hashes aside, which the standard does not guarantee either
way because an inconsistent hash violates the container's
requirements).  A probe therefore reliably finds a stored entry only
when an exactly-equal key is stored; a within-tolerance but distinct
key is missed. -/
def findNodeBitwise (nodeMap : List (Point3D × ℕ)) (corner : Point3D) : Option ℕ :=
  (nodeMap.find? fun e => decide (e.1 = corner)).map Prod.snd

/-- `insertCorner` with the map lookup behaving as `findNodeBitwise`:
the per-corner dedup body as the inconsistent bit-based hash
effectively executes it. -/
def insertCornerBitwise (st : DedupState) (corner : Point3D) : DedupState × ℕ :=
  match findNodeBitwise st.nodeMap corner with
  | some idx => (st, idx)
  | none =>
    ({ nodeMap := st.nodeMap ++ [(corner, st.nextNodeIndex)]
       uniqueNodes := st.uniqueNodes ++ [corner]
       nextNodeIndex := st.nextNodeIndex + 1 },
     st.nextNodeIndex)

/-- `processElement` over `insertCornerBitwise`. -/
def processElementBitwise (st : DedupState) (corners : List Point3D) :
    DedupState × List ℕ :=
  corners.foldl
    (fun acc corner =>
      ((insertCornerBitwise acc.1 corner).1,
       acc.2 ++ [(insertCornerBitwise acc.1 corner).2]))
    (st, [])

/-- `assignUniqueNodeIndices` over `insertCornerBitwise`. -/
def assignUniqueNodeIndicesBitwise (cornerNodes : List (List Point3D)) :
    DedupState × List (List ℕ) :=
  cornerNodes.foldl
    (fun acc corners =>
      ((processElementBitwise acc.1 corners).1,
       acc.2 ++ [(processElementBitwise acc.1 corners).2]))
    (⟨[], [], 0⟩, [])

/-- `meshFromVoxels` under the effective bit-based-hash lookup. -/
def meshFromVoxelsBitwise (voxels : List Voxel) : HexMesh :=
  { nodes := (assignUniqueNodeIndicesBitwise (voxels.map computeCornerNodes)).1.uniqueNodes
    elements := (assignUniqueNodeIndicesBitwise (voxels.map computeCornerNodes)).2 }

/-- `generateHexMesh` under the effective bit-based-hash lookup. -/
def generateHexMeshBitwise (voxelGrid : VoxelGrid) : HexMesh :=
  meshFromVoxelsBitwise voxelGrid.emptyVoxels

/-- A bounding box holding one tiny cell: `[0, 1e-13]^3`. -/
def tinyBB : BoundingBox :=
  { min := ⟨0, 0, 0⟩, max := ⟨1 / 10 ^ 13, 1 / 10 ^ 13, 1 / 10 ^ 13⟩ }

/-- The single (empty) cell of the grid built over `tinyBB` with voxel
size `1e-13`: a cube with edge `1e-13`, below the dedup tolerance. -/
def tinyCell : Voxel :=
  { index := (0, 0, 0),
    center := ⟨1 / (2 * 10 ^ 13), 1 / (2 * 10 ^ 13), 1 / (2 * 10 ^ 13)⟩,
    min := ⟨0, 0, 0⟩, max := ⟨1 / 10 ^ 13, 1 / 10 ^ 13, 1 / 10 ^ 13⟩,
    occupied := false, atomIds := [] }

set_option maxRecDepth 2048 in
unseal Rat.add Rat.mul Rat.inv Rat.sub in
/-- C1: the claimed global uniqueness is the documented intent, but the
code's hash breaks it.  A grid the constructors accept (voxel size
`1e-13` over `tinyBB`, no atoms) has the single empty cell `tinyCell`,
and under the effective behavior of the bit-based hash the mesh
generated from it keeps all 8 corner nodes; its first two nodes,
`(0,0,0)` and `(1e-13,0,0)`, are distinct yet within the `1e-12`
tolerance on every axis (`point3DEqual` holds) — the claimed uniqueness
fails, because `Point3DHash` is inconsistent with the `Point3DEqual`
comparator and the bucketed find misses within-tolerance keys instead
of merging them (under the comparator's intended semantics all 8
corners of this cell would collapse to one node). -/
theorem generateHexMeshBitwise_duplicate_nodes :
    VoxelGrid.fromBox tinyBB [] (1 / 10 ^ 13) =
      .ok (buildGrid tinyBB [] (1 / 10 ^ 13)) ∧
    (buildGrid tinyBB [] (1 / 10 ^ 13)).emptyVoxels = [tinyCell] ∧
    (meshFromVoxelsBitwise [tinyCell]).nodes =
      [⟨0, 0, 0⟩, ⟨1 / 10 ^ 13, 0, 0⟩, ⟨1 / 10 ^ 13, 1 / 10 ^ 13, 0⟩,
       ⟨0, 1 / 10 ^ 13, 0⟩, ⟨0, 0, 1 / 10 ^ 13⟩, ⟨1 / 10 ^ 13, 0, 1 / 10 ^ 13⟩,
       ⟨1 / 10 ^ 13, 1 / 10 ^ 13, 1 / 10 ^ 13⟩, ⟨0, 1 / 10 ^ 13, 1 / 10 ^ 13⟩] ∧
    (⟨0, 0, 0⟩ : Point3D) ≠ ⟨1 / 10 ^ 13, 0, 0⟩ ∧
    point3DEqual ⟨0, 0, 0⟩ ⟨1 / 10 ^ 13, 0, 0⟩ = true :=
  ⟨rfl, by decide, by decide, by decide, by decide⟩

end BioMesh
